import Mathlib

/-!
Shallow embedding of `src/index.js` of the helix-importer-cli repository.

JavaScript strings that the program inspects character by character
(argument tokens, paths) are modelled as `List Char`; strings that are
only carried around (HTML bodies, error messages) are `String`.
A promise that can reject, and a function that can throw, are modelled
as `Except`; JavaScript `undefined`/`null` holes are `Option`.
-/

/-- JavaScript error values thrown by the runtime or the program:
runtime `TypeError`s, runtime `ReferenceError`s, and generic `Error`s
coming from external collaborators (network, module loader, converter,
filesystem). -/
inductive JsError where
  | typeError (msg : String)
  | referenceError (msg : String)
  | jsError (msg : String)
deriving DecidableEq

/-- The error Node raises when `setTimeout` receives a non-function first
argument (code ERR_INVALID_ARG_TYPE). -/
def nodeInvalidCallbackError : JsError :=
  .typeError "ERR_INVALID_ARG_TYPE: the callback argument must be of type function"

/-- An argument value passed to `setTimeout`: either a function value or a
number.  Only these two shapes occur in the source. -/
inductive JsTimerArg where
  | func
  | number (n : Nat)
deriving DecidableEq

/-- Node's `setTimeout(callback, ms)`: when `callback` is not a function it
throws ERR_INVALID_ARG_TYPE synchronously; otherwise the timer is armed and
the call returns. -/
def setTimeoutNode (callback : JsTimerArg) (ms : JsTimerArg) : Except JsError Unit :=
  match callback, ms with
  | .func, _ => .ok ()
  | .number _, _ => .error nodeInvalidCallbackError

/-- Embedding of `delay` (src/index.js lines 17-19):
`await new Promise(resolve => setTimeout(ms, resolve))`.
The source passes `setTimeout` its two arguments swapped, so the number `ms`
is the callback; Node's `setTimeout` then throws synchronously inside the
promise executor, which rejects the promise, and the `await` rethrows.
In the (unreachable) case where `setTimeout` accepts the arguments the
promise would eventually resolve with no value, modelled by `.ok ()`. -/
def delay (ms : Nat) : Except JsError Unit :=
  match setTimeoutNode (.number ms) .func with
  | .error e => .error e
  | .ok _ => .ok ()

/-- Outcome of one `await fetch(url)` attempt, as seen by the retry loop:
either the promise resolved to a response with a status and a body text, or
it rejected with a network-level error.  `response.text()` is modelled as
immediately available. -/
inductive AttemptResult where
  | response (status : Nat) (body : String)
  | netError (e : JsError)
deriving DecidableEq

/-- Loop of `fetchAsTextWithRetry` (src/index.js lines 75-95).  `attempts`
gives the network's behaviour on each attempt index, `iter` the current
attempt index, and the last argument the number of loop iterations left.
A non-200 status runs `await delay(...)` inside the `try`; a rejection
there is caught by the `catch` block, which itself runs `await delay(...)`
again, and a rejection of that one propagates out of the function.  A
network error goes straight to the `catch` block. -/
def fetchLoop (attempts : Nat → AttemptResult) (delayBetweenRetries : Nat) :
    Nat → Nat → Except JsError (Option String)
  | _, 0 => .ok none
  | iter, remaining + 1 =>
    match attempts iter with
    | .response status body =>
      if status = 200 then
        .ok (some body)
      else
        match delay delayBetweenRetries with
        | .ok _ => fetchLoop attempts delayBetweenRetries (iter + 1) remaining
        | .error _ =>
          match delay delayBetweenRetries with
          | .ok _ => fetchLoop attempts delayBetweenRetries (iter + 1) remaining
          | .error e => .error e
    | .netError _ =>
      match delay delayBetweenRetries with
      | .ok _ => fetchLoop attempts delayBetweenRetries (iter + 1) remaining
      | .error e => .error e

/-- Embedding of `fetchAsTextWithRetry` (src/index.js lines 73-98): run the
attempt loop starting at attempt 0 with `maxRetries` iterations; `.ok none`
models returning `null`, `.ok (some t)` returning the body text `t`, and
`.error e` the returned promise rejecting with `e`. -/
def fetchAsTextWithRetry (attempts : Nat → AttemptResult) (maxRetries : Nat := 3)
    (delayBetweenRetries : Nat := 250) : Except JsError (Option String) :=
  fetchLoop attempts delayBetweenRetries 0 maxRetries

/-- Network behaviour whose first attempt gets HTTP 500 and whose later
attempts get HTTP 200 with body "hello". -/
def attemptsRetryThen200 : Nat → AttemptResult :=
  fun i => if i = 0 then .response 500 "Internal Server Error" else .response 200 "hello"

/-- C2 (failing-input evaluation): with `maxRetries = 3` and a URL whose
first attempt returns status 500 and whose second attempt returns status
200 with body "hello", `fetchAsTextWithRetry` does not return the body
text (nor `null`): it rejects with Node's ERR_INVALID_ARG_TYPE TypeError,
because the retry delay's `setTimeout(ms, resolve)` call has its arguments
swapped. -/
theorem fetchAsTextWithRetry_bug_eval :
    fetchAsTextWithRetry attemptsRetryThen200 3 250 = .error nodeInvalidCallbackError := by
  rfl

/-- C3: `delay(ms)` always produces a rejected promise (Node's `setTimeout`
rejects a numeric callback), and consequently, for any positive
`maxRetries`, whenever the first fetch attempt fails with a non-200 status
or a network error `fetchAsTextWithRetry` rejects instead of waiting and
retrying; it returns text exactly when the very first attempt returns
status 200. -/
theorem delay_rejects_and_fetch_never_retries (attempts : Nat → AttemptResult)
    (ms dbr n : Nat) :
    delay ms = .error nodeInvalidCallbackError ∧
    (∀ status body, attempts 0 = .response status body → status ≠ 200 →
      fetchAsTextWithRetry attempts (n + 1) dbr = .error nodeInvalidCallbackError) ∧
    (∀ e, attempts 0 = .netError e →
      fetchAsTextWithRetry attempts (n + 1) dbr = .error nodeInvalidCallbackError) ∧
    (∀ body, attempts 0 = .response 200 body →
      fetchAsTextWithRetry attempts (n + 1) dbr = .ok (some body)) := by
  refine ⟨rfl, ?_, ?_, ?_⟩
  · intro status body h hne
    simp [fetchAsTextWithRetry, fetchLoop, h, hne, delay, setTimeoutNode]
  · intro e h
    simp [fetchAsTextWithRetry, fetchLoop, h, delay, setTimeoutNode]
  · intro body h
    simp [fetchAsTextWithRetry, fetchLoop, h]

/-- Witness for C3 at concrete inputs: the always-500 network rejects on a
3-attempt run, and an immediately-200 network returns its body. -/
theorem delay_rejects_and_fetch_never_retries_witness :
    delay 250 = .error nodeInvalidCallbackError ∧
    fetchAsTextWithRetry attemptsRetryThen200 3 250 = .error nodeInvalidCallbackError ∧
    fetchAsTextWithRetry (fun _ => .response 200 "hi") 3 250 = .ok (some "hi") := by
  refine ⟨(delay_rejects_and_fetch_never_retries attemptsRetryThen200 250 250 2).1, ?_, ?_⟩
  · exact (delay_rejects_and_fetch_never_retries attemptsRetryThen200 250 250 2).2.1
      500 "Internal Server Error" rfl (by decide)
  · exact (delay_rejects_and_fetch_never_retries (fun _ => .response 200 "hi") 250 250 2).2.2.2
      "hi" rfl

/-- One import job as built by `parseArgs` (src/index.js line 59 pushes
`{ url, targetPath, transformerPath }`).  The source's JSDoc declares all
three fields as strings; a token with fewer than three `|`-separated parts
leaves the trailing fields as JavaScript `undefined`, modelled by `none`. -/
structure ImportDocument where
  url : Option (List Char)
  targetPath : Option (List Char)
  transformerPath : Option (List Char)
deriving DecidableEq

/-- The batch configuration built by `parseArgs` (src/index.js lines 28-31). -/
structure AppConfig where
  documents : List ImportDocument
  parallel : Bool
deriving DecidableEq

/-- JavaScript `String.prototype.split` with a single-character separator:
always returns at least one (possibly empty) part, and splits on every
occurrence of the separator. -/
def splitOnChar (sep : Char) : List Char → List (List Char)
  | [] => [[]]
  | c :: rest =>
    let r := splitOnChar sep rest
    if c = sep then [] :: r
    else (c :: r.headI) :: r.tail

/-- JavaScript `arg.startsWith('--')`. -/
def startsWithDashDash : List Char → Bool
  | '-' :: '-' :: _ => true
  | _ => false

/-- One iteration of the `parseArgs` loop (src/index.js lines 33-61) on the
state (configuration so far, `console.warn` lines so far).  An option token
is split on `=` (JavaScript `split('=', 2)` keeps the first two parts, read
here through `parts.headI` and `parts[1]?`); any other token is split on
`|` and pushed as a job. -/
def parseStep (st : AppConfig × List (List Char)) (arg : List Char) :
    AppConfig × List (List Char) :=
  if startsWithDashDash arg then
    if (splitOnChar '=' (arg.drop 2)).headI = "parallel".data then
      match (splitOnChar '=' (arg.drop 2))[1]? with
      | none => ({ st.1 with parallel := true }, st.2)
      | some v =>
        if v = "true".data then ({ st.1 with parallel := true }, st.2)
        else if v = "false".data then ({ st.1 with parallel := false }, st.2)
        else (st.1, st.2 ++ ["Invalid value for argument --parallel '".data ++ v ++ "'".data])
    else (st.1, st.2 ++
      ["Invalid argument name '".data ++ (splitOnChar '=' (arg.drop 2)).headI ++ "'".data])
  else
    ({ st.1 with documents := st.1.documents ++
        [{ url := (splitOnChar '|' arg)[0]?, targetPath := (splitOnChar '|' arg)[1]?,
           transformerPath := (splitOnChar '|' arg)[2]? }] }, st.2)

/-- Embedding of `parseArgs` (src/index.js lines 26-64); the second
component collects the `console.warn` output. -/
def parseArgs (args : List (List Char)) : AppConfig × List (List Char) :=
  args.foldl parseStep ({ documents := [], parallel := true }, [])

/-- Modelled from the spec's wording for C9: the Job produced from one
non-option token, the token split on the literal `|` character into fields
in (url, outputPath, transformerPath) order. -/
def jobOfToken (arg : List Char) : ImportDocument :=
  { url := (splitOnChar '|' arg)[0]?, targetPath := (splitOnChar '|' arg)[1]?,
    transformerPath := (splitOnChar '|' arg)[2]? }

/-- Modelled from the spec's wording for C10: the valid `--parallel` value
carried by one token, if any (`true` when the value is omitted or `true`,
`false` when `false`; anything else is not a valid value). -/
def parallelValueOfToken (arg : List Char) : Option Bool :=
  if startsWithDashDash arg then
    if (splitOnChar '=' (arg.drop 2)).headI = "parallel".data then
      match (splitOnChar '=' (arg.drop 2))[1]? with
      | none => some true
      | some v =>
        if v = "true".data then some true
        else if v = "false".data then some false
        else none
    else none
  else none

/-- The warning lines one token contributes. -/
def warningsOfToken (arg : List Char) : List (List Char) :=
  if startsWithDashDash arg then
    if (splitOnChar '=' (arg.drop 2)).headI = "parallel".data then
      match (splitOnChar '=' (arg.drop 2))[1]? with
      | none => []
      | some v =>
        if v = "true".data then []
        else if v = "false".data then []
        else ["Invalid value for argument --parallel '".data ++ v ++ "'".data]
    else ["Invalid argument name '".data ++ (splitOnChar '=' (arg.drop 2)).headI ++ "'".data]
  else []

theorem parseStep_documents (st : AppConfig × List (List Char)) (arg : List Char) :
    (parseStep st arg).1.documents =
      st.1.documents ++ (if startsWithDashDash arg then [] else [jobOfToken arg]) := by
  unfold parseStep jobOfToken
  repeat' split
  all_goals simp

theorem parseStep_parallel (st : AppConfig × List (List Char)) (arg : List Char) :
    (parseStep st arg).1.parallel = (parallelValueOfToken arg).getD st.1.parallel := by
  unfold parseStep parallelValueOfToken
  repeat' split
  all_goals simp_all

theorem parseStep_warnings (st : AppConfig × List (List Char)) (arg : List Char) :
    (parseStep st arg).2 = st.2 ++ warningsOfToken arg := by
  unfold parseStep warningsOfToken
  repeat' split
  all_goals simp_all

theorem parseArgs_foldl_documents (args : List (List Char)) :
    ∀ st : AppConfig × List (List Char),
      (args.foldl parseStep st).1.documents =
        st.1.documents ++ (args.filter (fun a => ! startsWithDashDash a)).map jobOfToken := by
  induction args with
  | nil => intro st; simp
  | cons a rest ih =>
    intro st
    simp only [List.foldl_cons, List.filter_cons]
    rw [ih, parseStep_documents]
    by_cases h : startsWithDashDash a <;> simp [h]

theorem parseArgs_foldl_parallel (args : List (List Char)) :
    ∀ st : AppConfig × List (List Char),
      (args.foldl parseStep st).1.parallel =
        args.foldl (fun b a => (parallelValueOfToken a).getD b) st.1.parallel := by
  induction args with
  | nil => intro st; rfl
  | cons a rest ih =>
    intro st
    simp only [List.foldl_cons]
    rw [ih, parseStep_parallel]

theorem parseArgs_foldl_warnings (args : List (List Char)) :
    ∀ st : AppConfig × List (List Char),
      (args.foldl parseStep st).2 = st.2 ++ (args.map warningsOfToken).flatten := by
  induction args with
  | nil => intro st; simp
  | cons a rest ih =>
    intro st
    simp only [List.foldl_cons, List.map_cons, List.flatten_cons]
    rw [ih, parseStep_warnings, List.append_assoc]

/-- C9: for every argument list, `parseArgs` produces one Job per
non-option token (a token not starting with `--`), in the tokens' order of
appearance regardless of interleaved option flags, each Job being the
token split on the literal `|` character into fields in
(url, outputPath, transformerPath) order. -/
theorem parseArgs_jobs_in_order (args : List (List Char)) :
    (parseArgs args).1.documents =
      (args.filter (fun a => ! startsWithDashDash a)).map jobOfToken := by
  have h := parseArgs_foldl_documents args ({ documents := [], parallel := true }, [])
  simpa [parseArgs] using h

theorem splitOnChar_of_not_mem {sep : Char} {l : List Char} (h : sep ∉ l) :
    splitOnChar sep l = [l] := by
  induction l with
  | nil => rfl
  | cons c rest ih =>
    simp only [List.mem_cons, not_or] at h
    simp [splitOnChar, ih h.2, Ne.symm h.1, h.1]

theorem splitOnChar_append_sep {sep : Char} {a : List Char} (b : List Char)
    (h : sep ∉ a) : splitOnChar sep (a ++ sep :: b) = a :: splitOnChar sep b := by
  induction a with
  | nil => simp [splitOnChar]
  | cons c rest ih =>
    simp only [List.mem_cons, not_or] at h
    simp [splitOnChar, ih h.2, Ne.symm h.1, h.1]

theorem parseArgs_append_one (args : List (List Char)) (a : List Char) :
    parseArgs (args ++ [a]) = parseStep (parseArgs args) a := by
  simp [parseArgs, List.foldl_append]

/-- C10: appending `--parallel` options to any argument list shows that the
final `parallel` flag reflects only the last-seen valid value (`true` when
the value is omitted or `true`, `false` when `false`), while a `--parallel`
option with any other value logs an invalid-value warning, leaves the
current `parallel` value unchanged, and adds no Job. -/
theorem parseArgs_parallel_last_valid (args : List (List Char)) (v : List Char)
    (hmem : '=' ∉ v) (htrue : v ≠ "true".data) (hfalse : v ≠ "false".data) :
    (parseArgs (args ++ ["--parallel".data])).1.parallel = true ∧
    (parseArgs (args ++ ["--parallel=true".data])).1.parallel = true ∧
    (parseArgs (args ++ ["--parallel=false".data])).1.parallel = false ∧
    (parseArgs (args ++ ["--parallel=".data ++ v])).1.parallel = (parseArgs args).1.parallel ∧
    (parseArgs (args ++ ["--parallel=".data ++ v])).1.documents = (parseArgs args).1.documents ∧
    (parseArgs (args ++ ["--parallel=".data ++ v])).2 =
      (parseArgs args).2 ++ ["Invalid value for argument --parallel '".data ++ v ++ "'".data] := by
  have hdrop : ("--parallel=".data ++ v).drop 2 = "parallel".data ++ '=' :: v := rfl
  have hsplit : splitOnChar '=' ("parallel".data ++ '=' :: v) = ["parallel".data, v] := by
    rw [splitOnChar_append_sep v (by decide), splitOnChar_of_not_mem hmem]
  have hdd : startsWithDashDash ("--parallel=".data ++ v) = true := rfl
  have hval : parallelValueOfToken ("--parallel=".data ++ v) = none := by
    unfold parallelValueOfToken
    rw [hdd, hdrop, hsplit]
    simp [htrue, hfalse]
  have hwarn : warningsOfToken ("--parallel=".data ++ v) =
      ["Invalid value for argument --parallel '".data ++ v ++ "'".data] := by
    unfold warningsOfToken
    rw [hdd, hdrop, hsplit]
    simp [htrue, hfalse]
  refine ⟨?_, ?_, ?_, ?_, ?_, ?_⟩
  · rw [parseArgs_append_one, parseStep_parallel]
    have : parallelValueOfToken "--parallel".data = some true := by decide
    rw [this]; rfl
  · rw [parseArgs_append_one, parseStep_parallel]
    have : parallelValueOfToken "--parallel=true".data = some true := by decide
    rw [this]; rfl
  · rw [parseArgs_append_one, parseStep_parallel]
    have : parallelValueOfToken "--parallel=false".data = some false := by decide
    rw [this]; rfl
  · rw [parseArgs_append_one, parseStep_parallel, hval]; rfl
  · rw [parseArgs_append_one, parseStep_documents, hdd]
    simp
  · rw [parseArgs_append_one, parseStep_warnings, hwarn]

/-- Witness for C10 at concrete inputs: after `--parallel=false` the value
`--parallel=maybe` is rejected with a warning, changes nothing and adds no
job, while a later `--parallel=true` flips the flag. -/
theorem parseArgs_parallel_last_valid_witness :
    (parseArgs (["--parallel=false".data] ++ ["--parallel=maybe".data])).1.parallel =
      (parseArgs ["--parallel=false".data]).1.parallel ∧
    (parseArgs (["--parallel=false".data] ++ ["--parallel=true".data])).1.parallel = true := by
  have h := parseArgs_parallel_last_valid ["--parallel=false".data] "maybe".data
    (by decide) (by decide) (by decide)
  exact ⟨h.2.2.2.1, h.2.1⟩

/-- JavaScript `path.lastIndexOf(c)` for a single character: the index of
the last occurrence, or -1 when the character does not occur. -/
def jsLastIndexOf (c : Char) : List Char → Int
  | [] => -1
  | x :: xs =>
    if 0 ≤ jsLastIndexOf c xs then jsLastIndexOf c xs + 1
    else if x = c then 0 else -1

/-- JavaScript `s.endsWith(c)` for a one-character argument. -/
def jsEndsWithChar (c : Char) (l : List Char) : Bool := l.getLast? = some c

/-- The relative-path rewriting of the Fragment variant (src/index.js
line 167): the template literal
`targetPath + (targetPath.endsWith(slash) ? empty : slash) + path.slice(path.lastIndexOf(slash) + 1)`. -/
def rewriteFragmentPath (targetPath p : List Char) : List Char :=
  targetPath ++ (if jsEndsWithChar '/' targetPath then [] else ['/']) ++
    p.drop (jsLastIndexOf '/' p + 1).toNat

/-- Modelled from the spec's wording for C8: the final path segment of a
relative path, the maximal suffix containing no separator. -/
def finalSegment (p : List Char) : List Char :=
  (p.reverse.takeWhile (fun c => c != '/')).reverse

/-- Modelled from the spec's wording for C8: join the job's outputPath with
the final path segment of the original relative path, inserting a
separator only when outputPath does not already end in one. -/
def specJoinFinalSegment (outputPath p : List Char) : List Char :=
  (if jsEndsWithChar '/' outputPath then outputPath else outputPath ++ ['/']) ++ finalSegment p

theorem jsLastIndexOf_spec (c : Char) (l : List Char) :
    (c ∈ l ∧ 0 ≤ jsLastIndexOf c l) ∨ (c ∉ l ∧ jsLastIndexOf c l = -1) := by
  induction l with
  | nil => right; simp [jsLastIndexOf]
  | cons x xs ih =>
    rcases ih with ⟨hm, hge⟩ | ⟨hnm, heq⟩
    · left
      refine ⟨List.mem_cons_of_mem _ hm, ?_⟩
      simp only [jsLastIndexOf]
      rw [if_pos hge]
      omega
    · by_cases hxc : x = c
      · left
        refine ⟨by simp [hxc], ?_⟩
        simp only [jsLastIndexOf]
        rw [heq]
        simp [hxc]
      · right
        constructor
        · intro hmem
          rcases List.mem_cons.mp hmem with h | h
          · exact hxc h.symm
          · exact hnm h
        · simp only [jsLastIndexOf]
          rw [heq]
          simp [hxc]

theorem takeWhile_append_of_bad {q : Char → Bool} {l₁ : List Char} (l₂ : List Char)
    (h : ∃ a ∈ l₁, q a = false) :
    (l₁ ++ l₂).takeWhile q = l₁.takeWhile q := by
  induction l₁ with
  | nil => simp at h
  | cons x xs ih =>
    rcases h with ⟨a, ha, hqa⟩
    rcases List.mem_cons.mp ha with rfl | hmem
    · simp [List.takeWhile, hqa]
    · by_cases hx : q x
      · simp [List.takeWhile, hx, ih ⟨a, hmem, hqa⟩]
      · simp [List.takeWhile, Bool.of_not_eq_true hx]

theorem takeWhile_append_of_all {q : Char → Bool} {l₁ : List Char} (l₂ : List Char)
    (h : ∀ a ∈ l₁, q a = true) :
    (l₁ ++ l₂).takeWhile q = l₁ ++ l₂.takeWhile q := by
  induction l₁ with
  | nil => simp
  | cons x xs ih =>
    have hx : q x = true := h x (List.mem_cons_self x xs)
    simp [List.takeWhile, hx, ih (fun a ha => h a (List.mem_cons_of_mem _ ha))]

theorem drop_lastIndexOf_eq_finalSegment (p : List Char) :
    p.drop (jsLastIndexOf '/' p + 1).toNat = finalSegment p := by
  induction p with
  | nil => rfl
  | cons x xs ih =>
    rcases jsLastIndexOf_spec '/' xs with ⟨hm, hge⟩ | ⟨hnm, heq⟩
    · have hval : jsLastIndexOf '/' (x :: xs) = jsLastIndexOf '/' xs + 1 := by
        simp only [jsLastIndexOf]
        rw [if_pos hge]
      have htn : (jsLastIndexOf '/' (x :: xs) + 1).toNat =
          (jsLastIndexOf '/' xs + 1).toNat + 1 := by
        rw [hval]; omega
      rw [htn, List.drop_succ_cons, ih]
      have hbad : ∃ a ∈ xs.reverse, (a != '/') = false := by
        exact ⟨'/', List.mem_reverse.mpr hm, by simp⟩
      simp only [finalSegment, List.reverse_cons]
      rw [takeWhile_append_of_bad [x] hbad]
    · have hall : ∀ a ∈ xs.reverse, (a != '/') = true := by
        intro a ha
        have hne : a ≠ '/' := fun hh => hnm (hh ▸ List.mem_reverse.mp ha)
        simp [hne]
      by_cases hxc : x = '/'
      · have hval : jsLastIndexOf '/' (x :: xs) = 0 := by
          simp only [jsLastIndexOf]
          rw [heq]
          simp [hxc]
        rw [hval]
        have h1 : ((0 : Int) + 1).toNat = 1 := rfl
        rw [h1, List.drop_succ_cons, List.drop_zero]
        simp only [finalSegment, List.reverse_cons]
        rw [takeWhile_append_of_all [x] hall]
        subst hxc
        simp
      · have hval : jsLastIndexOf '/' (x :: xs) = -1 := by
          simp only [jsLastIndexOf]
          rw [heq]
          simp [hxc]
        rw [hval]
        have h0 : ((-1 : Int) + 1).toNat = 0 := rfl
        rw [h0, List.drop_zero]
        simp only [finalSegment, List.reverse_cons]
        rw [takeWhile_append_of_all [x] hall]
        have hq : (x != '/') = true := by simp [hxc]
        simp [List.takeWhile_cons, hq]

theorem rewriteFragmentPath_eq_specJoin (targetPath p : List Char) :
    rewriteFragmentPath targetPath p = specJoinFinalSegment targetPath p := by
  unfold rewriteFragmentPath specJoinFinalSegment
  rw [drop_lastIndexOf_eq_finalSegment]
  by_cases h : jsEndsWithChar '/' targetPath <;> simp [h]

/-- JavaScript `indent` (src/index.js lines 106-110): prefix every line of
the stringified text with `indentSize` spaces. -/
def indent (text : String) (indentSize : Nat := 4) : String :=
  String.intercalate "\n"
    ((text.splitOn "\n").map (fun line => String.mk (List.replicate indentSize ' ') ++ line))

/-- The names bound in the module's top-level scope of src/index.js: its
four imports and its top-level arrow functions.  ES modules run in strict
mode, so reading any name that is neither here nor a global throws a
ReferenceError; `doc` and `e`, both read by `importFailure` (lines 121 and
126), are neither. -/
def moduleScopeBindings : List String :=
  ["helix", "JSDOM", "fs", "path", "delay", "parseArgs", "fetchAsTextWithRetry",
   "indent", "importFailure", "importDocument", "main"]

/-- Reading a free variable against the module's top-level scope: a bound
name yields its value (not modelled further), an unbound name throws
`ReferenceError: name is not defined`. -/
def lookupModuleScope (name : String) : Except JsError Unit :=
  if name ∈ moduleScopeBindings then .ok ()
  else .error (.referenceError (name ++ " is not defined"))

/-- The source's `ImportFailure` record `{ document, reason }` (JSDoc line
9 and src/index.js lines 124-128).  The `document` field receives the
value of the free variable `doc`; since that lookup always throws, no
record is ever built, and the field is typed `Option ImportDocument` so
the unreachable branch can be written down. -/
structure ImportFailure where
  document : Option ImportDocument
  reason : String
deriving DecidableEq

/-- Embedding of `importFailure` (src/index.js lines 118-131).  The helper
is an arrow function declared at module scope, so the `e` inside the
template literal on line 121 and the `doc` on line 126 are resolved
lexically against the module scope, where neither is bound: with a truthy
`error` argument the function throws ReferenceError on `e`, and otherwise
it throws ReferenceError on `doc`.  The continuations after a failed
lookup are unreachable, so the stringification of the looked-up values is
not modelled further. -/
def importFailure (reason : String) (error : Option JsError) : Except JsError ImportFailure :=
  match (if error.isSome then
           match lookupModuleScope "e" with
           | .error err => .error err
           | .ok _ => .ok (reason ++ "\n" ++ indent "")
         else .ok reason : Except JsError String) with
  | .error err => .error err
  | .ok reasonText =>
    match lookupModuleScope "doc" with
    | .error err => .error err
    | .ok _ => .ok { document := none, reason := reasonText }

/-- A JavaScript value thrown out of `importDocument`: either a runtime
error or an `ImportFailure` record (what `throw importFailure(...)` throws
when `importFailure` returns normally). -/
inductive JsThrown where
  | err (e : JsError)
  | failure (f : ImportFailure)
deriving DecidableEq

/-- The value a `throw importFailure(reason, error)` statement throws:
evaluating the call may itself throw before the `throw` gets a value. -/
def throwImportFailure (reason : String) (error : Option JsError) : JsThrown :=
  match importFailure reason error with
  | .error e => .err e
  | .ok f => .failure f

/-- One `{ element, path }` pair returned by a Fragment-variant
transformer's `transform`; the DOM element is opaque, identified by a
number. -/
structure Fragment where
  element : Nat
  path : List Char
deriving DecidableEq

/-- A loaded transformer module's default export, reduced to what
`importDocument` inspects: whether `transformer.transformDOM` is a truthy
property and, when `transformer.transform` is present, the fragment list
its invocation returns. -/
structure TransformerModule where
  hasTransformDOM : Bool
  transform : Option (List Fragment)
deriving DecidableEq

/-- The normalized transform contract handed to the converter (src/index.js
lines 155-169); its closures are modelled by their results.  The DOM
variant carries the constant value of `generateDocumentPath` (the job's
`targetPath`); the Fragment variant carries the rewritten fragment list of
its `transform` closure. -/
inductive TransformConfig where
  | domVariant (generateDocumentPath : Option (List Char))
  | fragmentVariant (fragments : List Fragment)
deriving DecidableEq

/-- The invalid-transformer reason string of src/index.js line 171. -/
def invalidTransformerReason : String :=
  "Invalid transformer, it doesn't have either a transformDOM or transform function,\nsee https://github.com/adobe/helix-importer?tab=readme-ov-file#html2x-helpers"

/-- The transform-contract dispatch of `importDocument` (src/index.js
lines 153-172): a truthy `transformDOM` property wins and yields the DOM
variant; otherwise a truthy `transform` property yields the Fragment
variant with every returned relative path rewritten under the job's
`targetPath` (line 167); otherwise the invalid-transformer failure is
thrown.  `targetPath` is an `Option` because a malformed job token leaves
it undefined, on which the fragment branch's `.endsWith` call would raise
a TypeError. -/
def buildTransformConfig (targetPath : Option (List Char)) (m : TransformerModule) :
    Except JsThrown TransformConfig :=
  if m.hasTransformDOM then .ok (.domVariant targetPath)
  else match m.transform, targetPath with
    | some frags, some tp =>
      .ok (.fragmentVariant (frags.map fun f =>
        { element := f.element, path := rewriteFragmentPath tp f.path }))
    | some _, none =>
      .error (.err (.typeError "Cannot read properties of undefined"))
    | none, _ => .error (throwImportFailure invalidTransformerReason none)

/-- The converter's result record (source JSDoc line 10); the docx payload
is an opaque byte list. -/
structure ImportResult where
  docx : List Nat
  html : String
  md : String
  path : List Char
deriving DecidableEq

/-- The external collaborators of one `importDocument` run: the network's
behaviour per fetch attempt for the job's URL, the result of dynamically
importing the job's transformer module (its `.default` export), the
external html2docx routine as a function of the transform contract, and
the filesystem's response to the `mkdir` + `writeFile` of a result path
and payload. -/
structure PipelineEnv where
  attempts : Nat → AttemptResult
  moduleLoad : Except JsError TransformerModule
  html2docx : TransformConfig → Except JsError ImportResult
  fsWrite : List Char → List Nat → Except JsError Unit

/-- JavaScript truthiness test of `!htmlText` (src/index.js line 143):
`null` and the empty string are falsy. -/
def jsFalsyText : Option String → Bool
  | none => true
  | some s => s == ""

/-- Embedding of `importDocument` (src/index.js lines 138-193): fetch the
URL's text, throw the failed-fetch failure when it is falsy, load the
transformer module, build the transform contract, convert, and write;
every caught error is rethrown through `importFailure`. -/
def importDocument (env : PipelineEnv) (doc : ImportDocument) : Except JsThrown ImportResult :=
  match fetchAsTextWithRetry env.attempts 3 250 with
  | .error e => .error (.err e)
  | .ok htmlText =>
    if jsFalsyText htmlText then .error (throwImportFailure "Failed to fetch URL" none)
    else match env.moduleLoad with
      | .error e => .error (throwImportFailure "Failed to import transformer" (some e))
      | .ok transformer =>
        match buildTransformConfig doc.targetPath transformer with
        | .error t => .error t
        | .ok transformConfig =>
          match env.html2docx transformConfig with
          | .error e => .error (throwImportFailure "Failed to transform html2docx" (some e))
          | .ok result =>
            match env.fsWrite result.path result.docx with
            | .error e =>
              .error (throwImportFailure
                "Failed writing the resulting document to the filesystem" (some e))
            | .ok _ => .ok result

/-- C8: for every Fragment-variant transformer module and every
(element, relativePath) pair its `transform` returns, the adapter rewrites
the relative path by joining the job's outputPath with the final path
segment of the original relative path, inserting a separator only when the
outputPath does not already end in one; in particular `a/b/c.png` under
outputPath `out/dir` becomes `out/dir/c.png`, and under `out/dir/` also
becomes `out/dir/c.png` with no double slash. -/
theorem fragment_paths_joined_under_outputPath (tp : List Char) (frags : List Fragment) :
    buildTransformConfig (some tp) { hasTransformDOM := false, transform := some frags } =
      .ok (.fragmentVariant (frags.map fun f =>
        { element := f.element, path := specJoinFinalSegment tp f.path })) ∧
    rewriteFragmentPath "out/dir".data "a/b/c.png".data = "out/dir/c.png".data ∧
    rewriteFragmentPath "out/dir/".data "a/b/c.png".data = "out/dir/c.png".data := by
  refine ⟨?_, by decide, by decide⟩
  simp [buildTransformConfig, rewriteFragmentPath_eq_specJoin]

/-- A transformer module exposing both capabilities. -/
def bothCapabilities : TransformerModule :=
  { hasTransformDOM := true, transform := some [{ element := 1, path := "a/b.png".data }] }

/-- A transformer module exposing neither capability. -/
def neitherCapability : TransformerModule :=
  { hasTransformDOM := false, transform := none }

/-- Whether an `Except` outcome is an error. -/
def exceptIsError {ε α : Type} : Except ε α → Bool
  | .error _ => true
  | .ok _ => false

/-- C4 counterexample: a loaded module exposing both `transformDOM` and
`transform` is not surfaced as an error — the dispatch silently resolves
it to the DOM variant. -/
theorem both_capabilities_resolved_silently :
    buildTransformConfig (some "out".data) bothCapabilities =
      .ok (.domVariant (some "out".data)) ∧
    exceptIsError (buildTransformConfig (some "out".data) bothCapabilities) = false := by
  exact ⟨rfl, rfl⟩

/-- C4 (amended): the dispatch checks `transformDOM` first and `transform`
second; a module exposing neither capability fails (the
invalid-transformer failure path throws — due to the `importFailure` bug
the thrown value is a ReferenceError on `doc` rather than an
ImportFailure), while a module exposing both capabilities is silently
resolved to the DOM variant rather than surfaced as an error. -/
theorem transformer_dispatch (tp : Option (List Char)) (m : TransformerModule) :
    (m.hasTransformDOM = true → buildTransformConfig tp m = .ok (.domVariant tp)) ∧
    (m.hasTransformDOM = false → m.transform = none →
      buildTransformConfig tp m = .error (.err (.referenceError "doc is not defined"))) := by
  constructor
  · intro h
    simp [buildTransformConfig, h]
  · intro h1 h2
    simp only [buildTransformConfig, h1, Bool.false_eq_true, if_false, h2]
    rfl

/-- Witness for C4's amended theorem at the two concrete modules. -/
theorem transformer_dispatch_witness :
    buildTransformConfig (some "out".data) bothCapabilities =
      .ok (.domVariant (some "out".data)) ∧
    buildTransformConfig (some "out".data) neitherCapability =
      .error (.err (.referenceError "doc is not defined")) := by
  exact ⟨(transformer_dispatch (some "out".data) bothCapabilities).1 rfl,
         (transformer_dispatch (some "out".data) neitherCapability).2 rfl rfl⟩

/-- A concrete well-formed job. -/
def docExample : ImportDocument :=
  { url := some "https://example.com/a".data, targetPath := some "out/a.docx".data,
    transformerPath := some "./t.js".data }

/-- A converter result used by the example environments. -/
def resultExample : ImportResult :=
  { docx := [80, 75], html := "<html></html>", md := "# a", path := "out/a.docx".data }

/-- An environment whose fetch succeeds with an empty body — which is falsy
in JavaScript, so `importDocument` takes the failed-fetch path — and whose
other collaborators all succeed. -/
def envEmptyBody : PipelineEnv :=
  { attempts := fun _ => .response 200 "",
    moduleLoad := .ok { hasTransformDOM := true, transform := none },
    html2docx := fun _ => .ok resultExample,
    fsWrite := fun _ _ => .ok () }

/-- An environment whose fetch succeeds and whose transformer module fails
to load. -/
def envLoadError : PipelineEnv :=
  { attempts := fun _ => .response 200 "<html></html>",
    moduleLoad := .error (.jsError "Cannot find module ./t.js"),
    html2docx := fun _ => .ok resultExample,
    fsWrite := fun _ _ => .ok () }

/-- Whether a pipeline outcome is a thrown `ImportFailure` record. -/
def isImportFailureThrow : Except JsThrown ImportResult → Bool
  | .error (.failure _) => true
  | _ => false

/-- C1 (failing-input evaluation): on the failed-fetch path the pipeline's
failure value is `ReferenceError: doc is not defined`, and on the
transformer-load-error path it is `ReferenceError: e is not defined`; in
neither case is it an ImportFailure record carrying the original Job and a
reason string, because `importFailure` reads the free variables `doc` and
`e` that are not in its module-level lexical scope. -/
theorem importDocument_failure_value_eval :
    importDocument envEmptyBody docExample =
      .error (.err (.referenceError "doc is not defined")) ∧
    isImportFailureThrow (importDocument envEmptyBody docExample) = false ∧
    importDocument envLoadError docExample =
      .error (.err (.referenceError "e is not defined")) ∧
    isImportFailureThrow (importDocument envLoadError docExample) = false := by
  exact ⟨rfl, rfl, rfl, rfl⟩

/-- One settlement event under the `Promise.allSettled` semantics:
completing promise index `i` records its settled outcome at position `i`
of the results array (ECMA-262 places each result at its input index,
whatever the completion order). -/
def settleInto {ε α : Type} (outcomes : List (Except ε α))
    (acc : List (Option (Except ε α))) (i : Nat) : List (Option (Except ε α)) :=
  match outcomes[i]? with
  | some r => acc.set i (some r)
  | none => acc

/-- The results array of `Promise.allSettled(promises)` after the
completion events of `schedule` (the promise indices in completion order)
have fired: it starts all-pending and records each settled outcome at its
own index. -/
def settleAll {ε α : Type} (outcomes : List (Except ε α)) (schedule : List Nat) :
    List (Option (Except ε α)) :=
  schedule.foldl (settleInto outcomes) (List.replicate outcomes.length none)

/-- The failure-collection loop of `main`'s parallel branch (src/index.js
lines 206-210): walk the allSettled results array in array order and push
the reason of every rejected entry. -/
def collectFailures {ε α : Type} (results : List (Option (Except ε α))) : List ε :=
  results.foldl
    (fun acc r =>
      match r with
      | some (.error e) => acc ++ [e]
      | _ => acc) []

/-- Embedding of `main`'s parallel branch (src/index.js lines 203-210):
launch one `importDocument` per job — `outcome` gives each job's pipeline
result — wait for all of them to settle, `schedule` being the order in
which they complete, and collect the rejected reasons from the settled
results array. -/
def runParallel {J ε α : Type} (outcome : J → Except ε α) (docs : List J)
    (schedule : List Nat) : List ε :=
  collectFailures (settleAll (docs.map outcome) schedule)

/-- One iteration of `main`'s sequential loop (src/index.js lines
212-220): try the job's pipeline, record the invocation, and on failure
catch the thrown value and push it onto the failures list. -/
def seqStep {J ε α : Type} (outcome : J → Except ε α)
    (st : List (J × Except ε α) × List ε) (d : J) : List (J × Except ε α) × List ε :=
  match outcome d with
  | .error e => (st.1 ++ [(d, .error e)], st.2 ++ [e])
  | .ok r => (st.1 ++ [(d, .ok r)], st.2)

/-- Embedding of `main`'s sequential branch (src/index.js lines 211-221):
run the job pipelines strictly one at a time in job-list order, catch each
failure, push it, and continue with the next job.  The first component is
instrumentation recording each `importDocument` invocation with its
outcome in execution order; the second is the failures list the source
builds. -/
def runSequential {J ε α : Type} (outcome : J → Except ε α) (docs : List J) :
    List (J × Except ε α) × List ε :=
  docs.foldl (seqStep outcome) ([], [])

/-- The error of a settled outcome, if it is one. -/
def errOf {ε α : Type} : Except ε α → Option ε
  | .error e => some e
  | .ok _ => none

/-- Modelled from the spec's wording for C5: the failures ordered by the
jobs' completion (settlement) times — walk the completion schedule and
keep each completing job's failure as it settles. -/
def completionOrderedFailures {J ε α : Type} (outcome : J → Except ε α) (docs : List J)
    (schedule : List Nat) : List ε :=
  schedule.foldl
    (fun (acc : List ε) (i : Nat) =>
      match (docs.map outcome)[i]? with
      | some (Except.error e) => acc ++ [e]
      | _ => acc) []

theorem settleInto_length {ε α : Type} (outcomes : List (Except ε α))
    (acc : List (Option (Except ε α))) (i : Nat) :
    (settleInto outcomes acc i).length = acc.length := by
  unfold settleInto
  split <;> simp

theorem settle_foldl_length {ε α : Type} (outcomes : List (Except ε α)) :
    ∀ (sch : List Nat) (acc : List (Option (Except ε α))),
      (sch.foldl (settleInto outcomes) acc).length = acc.length := by
  intro sch
  induction sch with
  | nil => intro acc; rfl
  | cons i rest ih =>
    intro acc
    simp only [List.foldl_cons]
    rw [ih, settleInto_length]

theorem settle_foldl_getElem {ε α : Type} (outcomes : List (Except ε α)) :
    ∀ (sch : List Nat) (acc : List (Option (Except ε α))) (j : Nat),
      acc.length = outcomes.length → j < outcomes.length →
      (sch.foldl (settleInto outcomes) acc)[j]? =
        if j ∈ sch then outcomes[j]?.map some else acc[j]? := by
  intro sch
  induction sch with
  | nil =>
    intro acc j _ _
    simp
  | cons i rest ih =>
    intro acc j hlen hj
    simp only [List.foldl_cons]
    rw [ih (settleInto outcomes acc i) j (by rw [settleInto_length]; exact hlen) hj]
    by_cases hjr : j ∈ rest
    · simp [hjr, List.mem_cons]
    · by_cases hij : j = i
      · subst hij
        have hout : ∃ r, outcomes[j]? = some r := by
          exact ⟨outcomes[j], List.getElem?_eq_getElem hj⟩
        rcases hout with ⟨r, hr⟩
        simp only [settleInto, hr]
        rw [List.getElem?_set_self (by rw [hlen]; exact hj)]
        simp [hjr, hr, List.mem_cons]
      · have hval : (settleInto outcomes acc i)[j]? = acc[j]? := by
          unfold settleInto
          split
          · exact List.getElem?_set_ne (fun hh => hij hh.symm)
          · rfl
        rw [hval]
        simp [hjr, List.mem_cons, hij]

/-- When every promise index appears in the completion schedule, the
settled results array is exactly the outcomes in input (submission) order:
`Promise.allSettled` yields results by input index, not completion time. -/
theorem settleAll_perm {ε α : Type} (outcomes : List (Except ε α)) (schedule : List Nat)
    (h : schedule.Perm (List.range outcomes.length)) :
    settleAll outcomes schedule = outcomes.map some := by
  apply List.ext_getElem?_iff.mpr
  intro j
  by_cases hj : j < outcomes.length
  · have hmem : j ∈ schedule := h.mem_iff.mpr (List.mem_range.mpr hj)
    rw [settleAll, settle_foldl_getElem outcomes schedule _ j (by simp) hj]
    simp [hmem, List.getElem?_map]
  · have h1 : (settleAll outcomes schedule)[j]? = none := by
      apply List.getElem?_eq_none
      rw [settleAll, settle_foldl_length]
      simpa [List.length_replicate] using Nat.le_of_not_lt hj
    have h2 : (outcomes.map some)[j]? = none := by
      apply List.getElem?_eq_none
      simpa using Nat.le_of_not_lt hj
    rw [h1, h2]

theorem collectFailures_foldl {ε α : Type} (l : List (Except ε α)) :
    ∀ acc : List ε,
      (l.map some).foldl
        (fun (acc : List ε) (r : Option (Except ε α)) =>
          match r with
          | some (Except.error e) => acc ++ [e]
          | _ => acc) acc = acc ++ l.filterMap errOf := by
  induction l with
  | nil => intro acc; simp
  | cons r rest ih =>
    intro acc
    simp only [List.map_cons, List.foldl_cons, List.filterMap_cons]
    cases r with
    | error e => rw [ih]; simp [errOf]
    | ok v => rw [ih]; simp [errOf]

theorem collectFailures_map_some {ε α : Type} (l : List (Except ε α)) :
    collectFailures (l.map some) = l.filterMap errOf := by
  have h := collectFailures_foldl l []
  simpa [collectFailures] using h

theorem length_filterMap_errOf {ε α : Type} (l : List (Except ε α)) :
    (l.filterMap errOf).length = l.countP (fun r => exceptIsError r) := by
  induction l with
  | nil => rfl
  | cons r rest ih =>
    cases r <;> simp [errOf, exceptIsError, List.filterMap_cons, List.countP_cons, ih]

/-- Two concrete jobs for the batch-runner counterexamples. -/
def docRunA : ImportDocument :=
  { url := some "https://example.com/a".data, targetPath := some "out/a.docx".data,
    transformerPath := some "./t.js".data }

/-- The second concrete job. -/
def docRunB : ImportDocument :=
  { url := some "https://example.com/b".data, targetPath := some "out/b.docx".data,
    transformerPath := some "./t.js".data }

/-- The failure value job A ends in. -/
def failRunA : JsThrown := .err (.jsError "job a failed")

/-- The failure value job B ends in. -/
def failRunB : JsThrown := .err (.jsError "job b failed")

/-- An outcome assignment under which both jobs fail, with distinct
failure values. -/
def outcomeBothFail : ImportDocument → Except JsThrown ImportResult :=
  fun d => if d = docRunA then .error failRunA else .error failRunB

/-- C5 counterexample: with both jobs failing and completion schedule
[1, 0] — job B settles before job A — the parallel runner's failure list
is the submission-order [failRunA, failRunB], while ordering by completion
time would give [failRunB, failRunA]; the two lists differ, so the failure
list is not ordered by completion times at this input. -/
theorem parallel_failures_not_completion_ordered :
    runParallel outcomeBothFail [docRunA, docRunB] [1, 0] = [failRunA, failRunB] ∧
    completionOrderedFailures outcomeBothFail [docRunA, docRunB] [1, 0] =
      [failRunB, failRunA] ∧
    decide (runParallel outcomeBothFail [docRunA, docRunB] [1, 0] =
      completionOrderedFailures outcomeBothFail [docRunA, docRunB] [1, 0]) = false := by
  exact ⟨by decide, by decide, by decide⟩

/-- C5 (amended): in parallel mode, for every batch and every completion
schedule covering all jobs, the Batch Runner's failure list is ordered by
the jobs' position in the job list (submission order), regardless of the
completion order — `Promise.allSettled` yields its results array in input
order, not settlement order. -/
theorem runParallel_submission_ordered {J ε α : Type} (outcome : J → Except ε α)
    (docs : List J) (schedule : List Nat)
    (h : schedule.Perm (List.range docs.length)) :
    runParallel outcome docs schedule = (docs.map outcome).filterMap errOf := by
  unfold runParallel
  rw [settleAll_perm _ _ (by simpa using h), collectFailures_map_some]

/-- Witness for C5's amended theorem at the out-of-order schedule. -/
theorem runParallel_submission_ordered_witness :
    runParallel outcomeBothFail [docRunA, docRunB] [1, 0] =
      (([docRunA, docRunB]).map outcomeBothFail).filterMap errOf := by
  exact runParallel_submission_ordered outcomeBothFail [docRunA, docRunB] [1, 0] (by decide)

/-- C7: in parallel mode, for every batch of N jobs and every completion
schedule covering all of them, the runner waits for every pipeline to
settle — the settled results array holds every job's outcome, with no
short-circuit on the first failure — and the reported failure count equals
the number M of failing jobs, regardless of completion order. -/
theorem runParallel_all_attempted_count {J ε α : Type} (outcome : J → Except ε α)
    (docs : List J) (schedule : List Nat)
    (h : schedule.Perm (List.range docs.length)) :
    settleAll (docs.map outcome) schedule = (docs.map outcome).map some ∧
    (runParallel outcome docs schedule).length =
      (docs.map outcome).countP (fun r => exceptIsError r) := by
  have hs := settleAll_perm (docs.map outcome) schedule (by simpa using h)
  refine ⟨hs, ?_⟩
  unfold runParallel
  rw [hs, collectFailures_map_some, length_filterMap_errOf]

/-- An outcome assignment under which only job A fails. -/
def outcomeAFails : ImportDocument → Except JsThrown ImportResult :=
  fun d => if d = docRunA then .error failRunA else .ok resultExample

/-- Witness for C7 at a concrete out-of-order schedule: both jobs settle,
and the failure count is 1. -/
theorem runParallel_all_attempted_count_witness :
    settleAll ([docRunA, docRunB].map outcomeAFails) [1, 0] =
      (([docRunA, docRunB]).map outcomeAFails).map some ∧
    (runParallel outcomeAFails [docRunA, docRunB] [1, 0]).length =
      (([docRunA, docRunB]).map outcomeAFails).countP (fun r => exceptIsError r) := by
  exact runParallel_all_attempted_count outcomeAFails [docRunA, docRunB] [1, 0] (by decide)

theorem seq_foldl_trace {J ε α : Type} (outcome : J → Except ε α) (docs : List J) :
    ∀ st : List (J × Except ε α) × List ε,
      (docs.foldl (seqStep outcome) st).1.map Prod.fst = st.1.map Prod.fst ++ docs := by
  induction docs with
  | nil => intro st; simp
  | cons d rest ih =>
    intro st
    simp only [List.foldl_cons]
    rw [ih]
    cases hd : outcome d <;> simp [seqStep, hd]

/-- C6: in sequential mode a job's failure never prevents later jobs from
running: for any two jobs of which the first fails with `fA` and the
second succeeds with `rB`, both pipelines are invoked in order — the
second still runs and succeeds despite the first's failure — and the
failures list contains exactly the first job's failure; moreover, for
every batch, every job in the list is run, in job-list order. -/
theorem runSequential_continue_on_error {J ε α : Type} (outcome : J → Except ε α)
    (docA docB : J) (fA : ε) (rB : α)
    (hA : outcome docA = .error fA) (hB : outcome docB = .ok rB) :
    runSequential outcome [docA, docB] = ([(docA, .error fA), (docB, .ok rB)], [fA]) ∧
    ∀ docs : List J, (runSequential outcome docs).1.map Prod.fst = docs := by
  constructor
  · simp [runSequential, seqStep, hA, hB]
  · intro docs
    have h := seq_foldl_trace outcome docs ([], [])
    simpa [runSequential] using h

/-- Witness for C6 at the concrete jobs: A fails, B still runs and
succeeds, and the failures list is exactly A's failure. -/
theorem runSequential_continue_on_error_witness :
    runSequential outcomeAFails [docRunA, docRunB] =
      ([(docRunA, .error failRunA), (docRunB, .ok resultExample)], [failRunA]) ∧
    ∀ docs : List ImportDocument,
      (runSequential outcomeAFails docs).1.map Prod.fst = docs := by
  exact runSequential_continue_on_error outcomeAFails docRunA docRunB failRunA resultExample
    rfl rfl
